import Mathlib

/-!
Verification of the course-catalog application (`CS203_LAB_01/app.py`).

The embedding models the durable-storage contract (`load_courses`,
`save_courses`, code derivation) and the route handlers (`add_course` POST,
`course_catalog`, `course_details`) as pure Lean functions over an explicit
file-state.  The backing JSON file is modelled by `FileState`: it is either
missing, present-but-undecodable, or present with a decoded ordered sequence
of course records.  Python exceptions that escape a handler are modelled by
`Except PyErr`.
-/

namespace CourseCatalog

/-- A persisted course record, mirroring the dict built in `add_course`
(lines 114-119 of `app.py`): fields `code`, `name`, `instructor`,
`semester`. -/
structure Course where
  code : String
  name : String
  instructor : String
  semester : String
deriving Repr, DecidableEq

/-- State of the backing file `course_catalog.json`: absent, present but not
decodable as JSON, or present with decoded contents (an ordered sequence of
course records). -/
inductive FileState where
  | missing
  | corrupt
  | content (courses : List Course)
deriving Repr, DecidableEq

/-- Python exceptions that can escape the modelled code paths:
`json.JSONDecodeError` from `json.load` on a corrupt file, `NameError` from
referencing an undefined variable, `KeyError` from a dict subscript on a
missing key. -/
inductive PyErr where
  | storageCorrupt
  | nameError (name : String)
  | keyError (key : String)
deriving Repr, DecidableEq

/-- Model of `load_courses` (app.py lines 55-60): returns `[]` if the file does not
exist, the decoded contents if it decodes, and raises (here: `.error
.storageCorrupt`) if the file exists but `json.load` fails. -/
def load_courses : FileState → Except PyErr (List Course)
  | .missing => .ok []
  | .corrupt => .error .storageCorrupt
  | .content cs => .ok cs

/-- Model of `save_courses` (app.py lines 64-69): loads the existing courses, appends
the new record, and rewrites the whole file with the updated sequence.  The
result pairs the outcome with the file-state after the call; an exception
raised inside `load_courses` propagates and leaves the file untouched. -/
def save_courses (data : Course) (s : FileState) : Except PyErr Unit × FileState :=
  match load_courses s with
  | .error e => (.error e, s)
  | .ok courses => (.ok (), .content (courses ++ [data]))

/-- Value attached to a span attribute (strings and integers occur in
`app.py`). -/
inductive AttrVal where
  | str (v : String)
  | nat (v : Nat)
deriving Repr, DecidableEq

/-- Logical outcome recorded on a span via `set_status`. -/
inductive SpanStatus where
  | unset
  | ok
  | error (description : String)
deriving Repr, DecidableEq

/-- A tracing span: the attributes attached so far (in order) and the
recorded status. -/
structure Span where
  attrs : List (String × AttrVal)
  status : SpanStatus
deriving Repr, DecidableEq

/-- A freshly started span. -/
def Span.init : Span := ⟨[], .unset⟩

/-- Model of `span.set_attribute(key, value)`. -/
def Span.setAttribute (sp : Span) (k : String) (v : AttrVal) : Span :=
  ⟨sp.attrs ++ [(k, v)], sp.status⟩

/-- Model of `span.set_status(status, description)`. -/
def Span.setStatus (sp : Span) (st : SpanStatus) : Span :=
  ⟨sp.attrs, st⟩

/-- Python `str.strip()`: remove leading and trailing whitespace. -/
def strStrip (s : String) : String :=
  ⟨((s.data.dropWhile Char.isWhitespace).reverse.dropWhile Char.isWhitespace).reverse⟩

/-- Python slice `s[:n]`: the first `n` characters (all of `s` if shorter). -/
def strTake (s : String) (n : Nat) : String :=
  ⟨s.data.take n⟩

/-- Python `str.upper()`: upper-case every character. -/
def strUpper (s : String) : String :=
  ⟨s.data.map Char.toUpper⟩

/-- The course-code derivation of app.py line 113:
`course_name[:4].upper() + str(count + 1)` where `count` is the number of
records currently stored. -/
def new_code (course_name : String) (count : Nat) : String :=
  strUpper (strTake course_name 4) ++ toString (count + 1)

/-- Model of `json.dumps(course)` for the `course.data` span attribute (line 122). -/
def dumpsCourse (c : Course) : String :=
  "\x7b\"code\": \"" ++ c.code ++ "\", \"name\": \"" ++ c.name ++
    "\", \"instructor\": \"" ++ c.instructor ++ "\", \"semester\": \"" ++
    c.semester ++ "\"\x7d"

instance {ε α : Type} [DecidableEq ε] [DecidableEq α] : DecidableEq (Except ε α) :=
  fun x y =>
    match x, y with
    | .error a, .error b =>
      if h : a = b then .isTrue (h ▸ rfl)
      else .isFalse (fun hc => h (Except.error.inj hc))
    | .error _, .ok _ => .isFalse (fun hc => Except.noConfusion hc)
    | .ok _, .error _ => .isFalse (fun hc => Except.noConfusion hc)
    | .ok a, .ok b =>
      if h : a = b then .isTrue (h ▸ rfl)
      else .isFalse (fun hc => h (Except.ok.inj hc))

/-- Response produced by the POST branch of `add_course`. -/
inductive AddResponse where
  | renderFormError
  | redirectCatalog (successCode : String)
deriving Repr, DecidableEq

/-- Observable outcome of one `add_course` POST request: the response (or
the escaping exception), the file-state afterwards, and the span at exit. -/
structure AddResult where
  response : Except PyErr AddResponse
  state : FileState
  span : Span
deriving Repr, DecidableEq

/-- The POST branch of `add_course` (app.py lines 99-130), modelled
faithfully: trim the three form fields; if name or instructor is empty, mark
the span as error and re-render the form; otherwise compute the code from
the current record count (line 113 calls `load_courses`, so a corrupt file
raises here), build the course dict, set the `course.data` attribute (line
122), and then hit line 123, `span.set_attribute("code", code)`, which
references the undefined variable `code` and raises `NameError` before
`save_courses` is ever called. -/
def add_course_post (name instructor semester : String) (s : FileState) : AddResult :=
  let course_name := strStrip name
  let instructor_t := strStrip instructor
  let semester_t := strStrip semester
  if course_name = "" ∨ instructor_t = "" then
    { response := .ok .renderFormError
      state := s
      span := Span.init.setStatus (.error "Validation failed") }
  else
    match load_courses s with
    | .error e => { response := .error e, state := s, span := Span.init }
    | .ok courses =>
      let nc := new_code course_name courses.length
      let course : Course := ⟨nc, course_name, instructor_t, semester_t⟩
      let sp := Span.init.setAttribute "course.data" (.str (dumpsCourse course))
      { response := .error (.nameError "code"), state := s, span := sp }

/-- Response of the `course_catalog` route. -/
structure CatalogResult where
  response : Except PyErr (List Course)
  state : FileState
  span : Span
deriving Repr, DecidableEq

/-- The `course_catalog` route (app.py lines 84-92): attach `user.ip`, load
all courses (a corrupt file makes the request fail), attach the record count
and status code, and render the catalog. -/
def course_catalog (ip : String) (s : FileState) : CatalogResult :=
  let sp := Span.init.setAttribute "user.ip" (.str ip)
  match load_courses s with
  | .error e => { response := .error e, state := s, span := sp }
  | .ok courses =>
    let sp := (sp.setAttribute "courses.count" (.nat courses.length)).setAttribute
      "http.status_code" (.nat 200)
    { response := .ok courses, state := s, span := sp }

/-- The linear scan of app.py line 142:
`next((course for course in courses if course['code'] == code), None)`,
over well-formed (schema-complete) records. -/
def find_course (courses : List Course) (code : String) : Option Course :=
  courses.find? (fun course => course.code == code)

/-- Response of the `course_details` route. -/
inductive DetailsResponse where
  | renderDetails (course : Course)
  | redirectNotFound
deriving Repr, DecidableEq

/-- Observable outcome of one `course_details` request. -/
structure DetailsResult where
  response : Except PyErr DetailsResponse
  state : FileState
  span : Span
deriving Repr, DecidableEq

/-- The `course_details` route (app.py lines 137-152): load all courses
(a corrupt file makes the request fail), scan for the first record whose
`code` equals the path parameter, and either render the detail view or mark
the span as error and redirect to the catalog.  The store is never
written. -/
def course_details (code : String) (s : FileState) : DetailsResult :=
  match load_courses s with
  | .error e => { response := .error e, state := s, span := Span.init }
  | .ok courses =>
    match find_course courses code with
    | none =>
      { response := .ok .redirectNotFound
        state := s
        span := (Span.init.setStatus (.error "Course not found")).setAttribute
          "http.status_code" (.nat 404) }
    | some course =>
      { response := .ok (.renderDetails course), state := s, span := Span.init }

/-- A raw decoded record, as `json.load` actually returns it: a JSON object
modelled as an ordered association list of string fields.  The store
performs no schema validation, so a record may lack the `code` key. -/
abbrev RawCourse := List (String × String)

/-- Python dict subscript `record["code"]`: the value at the key, or a
`KeyError` if the key is absent. -/
def getItem (r : RawCourse) (k : String) : Except PyErr String :=
  match r.find? (fun kv => kv.1 == k) with
  | some kv => .ok kv.2
  | none => .error (.keyError k)

/-- The scan of app.py line 142 over raw records: the generator evaluates
`course['code'] == code` lazily, so it raises `KeyError` at the first
scanned record lacking the key, stops at the first match, and yields `none`
when the list is exhausted. -/
def find_course_raw (code : String) : List RawCourse → Except PyErr (Option RawCourse)
  | [] => .ok none
  | r :: rs =>
    match getItem r "code" with
    | .error e => .error e
    | .ok c => if c = code then .ok (some r) else find_course_raw code rs

/-- The state-effect of one HTTP request (any of the five routes of
app.py). -/
inductive AppOp where
  | indexRoute
  | catalogRoute (ip : String)
  | addCourseGet
  | addCoursePost (name instructor semester : String)
  | courseDetails (code : String)

/-- File-state after handling one request.  `index` and the GET branch of
`add_course` never touch the store. -/
def runOp : AppOp → FileState → FileState
  | .indexRoute, s => s
  | .catalogRoute ip, s => (course_catalog ip s).state
  | .addCourseGet, s => s
  | .addCoursePost n i sem, s => (add_course_post n i sem s).state
  | .courseDetails c, s => (course_details c s).state

/-- Persist a sequence of records one by one through `save_courses`. -/
def save_all (records : List Course) (s : FileState) : FileState :=
  records.foldl (fun st data => (save_courses data st).2) s

/-- The course dict built at app.py lines 114-119 from the (already trimmed)
form fields and the current record count. -/
def built_course (name instructor semester : String) (cs : List Course) : Course :=
  ⟨new_code name cs.length, name, instructor, semester⟩

/-!  Theorems. -/

/-- C1.  The claim says a valid submission appends the record, marks the span
OK and redirects with the new code.  The code does not: line 123,
`span.set_attribute("code", code)`, references the undefined variable `code`
and raises `NameError` after building the record but before `save_courses`,
so the request fails with an exception, nothing is persisted, the span is
never marked OK, and no redirect happens.  Evaluated here at the spec's own
concrete scenario (empty store, name "Algorithms", instructor "Dr. Lee",
semester "Fall"). -/
theorem add_course_valid_post_raises_name_error :
    (add_course_post "Algorithms" "Dr. Lee" "Fall" .missing).response =
      .error (.nameError "code") ∧
    (add_course_post "Algorithms" "Dr. Lee" "Fall" .missing).state = .missing ∧
    (add_course_post "Algorithms" "Dr. Lee" "Fall" .missing).span.status ≠ .ok := by
  refine ⟨rfl, rfl, by decide⟩

/-- C2.  For every non-empty (trimmed) name and instructor, appending the
built record to a store holding `cs` and reloading yields `cs` with the
record at the end; the record carries exactly the submitted fields, and its
code is the upper-cased first four characters of the name followed by
`cs.length + 1`. -/
theorem append_then_load_spec (name instructor semester : String)
    (cs : List Course) (hn : name ≠ "") (hi : instructor ≠ "") :
    (save_courses (built_course name instructor semester cs) (.content cs)).1 = .ok () ∧
    load_courses (save_courses (built_course name instructor semester cs) (.content cs)).2 =
      .ok (cs ++ [built_course name instructor semester cs]) ∧
    (cs ++ [built_course name instructor semester cs]).getLast? =
      some (built_course name instructor semester cs) ∧
    (built_course name instructor semester cs).name = name ∧
    (built_course name instructor semester cs).instructor = instructor ∧
    (built_course name instructor semester cs).semester = semester ∧
    (built_course name instructor semester cs).code =
      strUpper (strTake name 4) ++ toString (cs.length + 1) := by
  exact ⟨rfl, rfl, List.getLast?_concat _, rfl, rfl, rfl, rfl⟩

/-- Witness for C2: the spec's concrete scenario, on an empty store. -/
theorem append_then_load_spec_witness :
    ("Algorithms" : String) ≠ "" ∧ ("Dr. Lee" : String) ≠ "" ∧
    built_course "Algorithms" "Dr. Lee" "Fall" [] =
      ⟨"ALGO1", "Algorithms", "Dr. Lee", "Fall"⟩ ∧
    load_courses (save_courses (built_course "Algorithms" "Dr. Lee" "Fall" []) (.content [])).2 =
      .ok ([] ++ [built_course "Algorithms" "Dr. Lee" "Fall" []]) ∧
    ([] ++ [built_course "Algorithms" "Dr. Lee" "Fall" []] : List Course).length = 1 := by
  have h := append_then_load_spec "Algorithms" "Dr. Lee" "Fall" [] (by decide) (by decide)
  exact ⟨by decide, by decide, by decide, h.2.1, by decide⟩

/-- C3.  Whenever the trimmed name or the trimmed instructor is empty, the
POST handler persists nothing (the file-state is returned unchanged), marks
the span as error with description "Validation failed", and re-renders the
form as the validation-failure signal. -/
theorem add_course_validation_failure (name instructor semester : String)
    (s : FileState) (h : strStrip name = "" ∨ strStrip instructor = "") :
    add_course_post name instructor semester s =
      { response := .ok .renderFormError
        state := s
        span := ⟨[], .error "Validation failed"⟩ } := by
  simp only [add_course_post]
  rw [if_pos h]
  rfl

/-- Witness for C3: submission with a blank instructor on an empty store. -/
theorem add_course_validation_failure_witness :
    (strStrip "Algorithms" = "" ∨ strStrip "   " = "") ∧
    add_course_post "Algorithms" "   " "Fall" .missing =
      { response := .ok .renderFormError
        state := .missing
        span := ⟨[], .error "Validation failed"⟩ } := by
  refine ⟨Or.inr (by decide), ?_⟩
  exact add_course_validation_failure "Algorithms" "   " "Fall" .missing (Or.inr (by decide))

/-- C4.  Loading from a missing backing file yields the empty sequence (an
`.ok` result, not an error), and loading from a file that decodes yields
exactly the decoded contents in stored order. -/
theorem load_courses_missing_or_decodable :
    load_courses .missing = .ok [] ∧
    ∀ cs : List Course, load_courses (.content cs) = .ok cs :=
  ⟨rfl, fun _ => rfl⟩

/-- C5.  On a backing file that exists but does not decode, `load_courses`
fails with the storage-corruption error, and the error propagates unrecovered
through every operation that calls it: the catalog route, the detail route,
`save_courses`, and the valid-submission path of the add-course POST handler
(which calls `load_courses` at line 113 to compute the new code). -/
theorem corrupt_file_error_propagates :
    load_courses .corrupt = .error .storageCorrupt ∧
    (∀ ip, (course_catalog ip .corrupt).response = .error .storageCorrupt) ∧
    (∀ code, (course_details code .corrupt).response = .error .storageCorrupt) ∧
    (∀ data, save_courses data .corrupt = (.error .storageCorrupt, .corrupt)) ∧
    (∀ name instructor semester, strStrip name ≠ "" → strStrip instructor ≠ "" →
      (add_course_post name instructor semester .corrupt).response =
        .error .storageCorrupt) := by
  refine ⟨rfl, fun _ => rfl, fun _ => rfl, fun _ => rfl, ?_⟩
  intro name instructor semester hn hi
  simp only [add_course_post]
  rw [if_neg (by exact not_or.mpr ⟨hn, hi⟩)]
  rfl

/-- Witness for C5: a valid submission against a corrupt store fails with
the storage-corruption error. -/
theorem corrupt_file_error_propagates_witness :
    strStrip "Algorithms" ≠ "" ∧ strStrip "Dr. Lee" ≠ "" ∧
    (add_course_post "Algorithms" "Dr. Lee" "Fall" .corrupt).response =
      .error .storageCorrupt :=
  ⟨by decide, by decide,
    corrupt_file_error_propagates.2.2.2.2 "Algorithms" "Dr. Lee" "Fall"
      (by decide) (by decide)⟩

/-- Saving every record of a list in order into a store holding `cs` leaves
the store holding `cs` followed by the list. -/
theorem save_all_content (records : List Course) (cs : List Course) :
    save_all records (.content cs) = .content (cs ++ records) := by
  induction records generalizing cs with
  | nil => simp [save_all]
  | cons r rs ih =>
    have hstep : save_all (r :: rs) (.content cs) =
        save_all rs (.content (cs ++ [r])) := rfl
    rw [hstep, ih]
    simp

/-- C6.  Round-trip law: persisting any sequence of records, one by one in
order through the store's write path, starting from an absent backing file,
and then reloading through `load_courses`, yields exactly the original
sequence, in order and in every field value. -/
theorem save_load_round_trip (records : List Course) :
    load_courses (save_all records .missing) = .ok records := by
  cases records with
  | nil => rfl
  | cons r rs =>
    have hstep : save_all (r :: rs) .missing = save_all rs (.content [r]) := rfl
    rw [hstep, save_all_content]
    rfl

/-- C7.  The detail lookup is a linear scan: any record it returns is the
first one in stored order whose `code` field equals the requested string
(case-sensitive, by string equality); it returns `none` exactly when no
stored record matches; and the route never mutates the store, answering a
miss with the not-found redirect rather than an error. -/
theorem find_course_spec (courses : List Course) (code : String) :
    (∀ c, find_course courses code = some c →
      c.code = code ∧ ∃ pre post, courses = pre ++ c :: post ∧
        ∀ c' ∈ pre, c'.code ≠ code) ∧
    (find_course courses code = none ↔ ∀ c ∈ courses, c.code ≠ code) ∧
    (course_details code (.content courses)).state = .content courses ∧
    ((∀ c ∈ courses, c.code ≠ code) →
      (course_details code (.content courses)).response = .ok .redirectNotFound) := by
  refine ⟨?_, ?_, ?_, ?_⟩
  · intro c hc
    induction courses with
    | nil => simp [find_course] at hc
    | cons a l ih =>
      by_cases ha : a.code = code
      · rw [find_course, List.find?_cons_of_pos _ (by simp [ha])] at hc
        cases hc
        exact ⟨ha, [], l, rfl, by simp⟩
      · rw [find_course, List.find?_cons_of_neg _ (by simp [ha])] at hc
        obtain ⟨hcode, pre, post, hsplit, hpre⟩ := ih hc
        refine ⟨hcode, a :: pre, post, by rw [hsplit]; rfl, ?_⟩
        intro c' hc'
        rcases List.mem_cons.mp hc' with h | h
        · exact h ▸ ha
        · exact hpre c' h
  · simp [find_course, List.find?_eq_none]
  · cases hf : find_course courses code <;>
      simp [course_details, load_courses, hf]
  · intro hall
    have hnone : find_course courses code = none := by
      simp [find_course, List.find?_eq_none]
      exact hall
    simp [course_details, load_courses, hnone]

/-- Witness for C7: the spec's concrete scenario — a store holding the
single record ALGO1; looking up "ALGO1" finds that record first, looking up
"CS999" answers with the not-found redirect. -/
theorem find_course_spec_witness :
    ((⟨"ALGO1", "Algorithms", "Dr. Lee", "Fall"⟩ : Course).code = "ALGO1" ∧
      ∃ pre post,
        [(⟨"ALGO1", "Algorithms", "Dr. Lee", "Fall"⟩ : Course)] =
          pre ++ (⟨"ALGO1", "Algorithms", "Dr. Lee", "Fall"⟩ : Course) :: post ∧
        ∀ c' ∈ pre, c'.code ≠ "ALGO1") ∧
    (course_details "CS999"
      (.content [⟨"ALGO1", "Algorithms", "Dr. Lee", "Fall"⟩])).response =
        .ok .redirectNotFound := by
  constructor
  · exact (find_course_spec [⟨"ALGO1", "Algorithms", "Dr. Lee", "Fall"⟩] "ALGO1").1
      ⟨"ALGO1", "Algorithms", "Dr. Lee", "Fall"⟩ (by decide)
  · exact (find_course_spec [⟨"ALGO1", "Algorithms", "Dr. Lee", "Fall"⟩] "CS999").2.2.2
      (by decide)

/-- No route handler of this code ever changes the file-state: the read
routes never write, and the add-course POST aborts (validation failure or
the line-123 `NameError`) before reaching `save_courses` on every path. -/
theorem runOp_state_unchanged (op : AppOp) (s : FileState) : runOp op s = s := by
  cases op with
  | indexRoute => rfl
  | catalogRoute ip => cases s <;> rfl
  | addCourseGet => rfl
  | addCoursePost n i sem =>
    simp only [runOp, add_course_post]
    split
    · rfl
    · cases s <;> rfl
  | courseDetails c =>
    cases s with
    | missing => rfl
    | corrupt => rfl
    | content cs =>
      simp only [runOp]
      cases hf : find_course cs c <;> simp [course_details, load_courses, hf]

/-- C8.  Append-only invariant: `save_courses` rewrites the backing file
with exactly the previously stored sequence, unchanged and in order,
followed by the single new record (an absent file behaves as the empty
sequence); and after any request handled by the application, the previously
stored sequence is still an unchanged initial segment of the store. -/
theorem append_only_invariant :
    (∀ data cs, (save_courses data (.content cs)).2 = .content (cs ++ [data])) ∧
    (∀ data, (save_courses data .missing).2 = .content [data]) ∧
    (∀ (op : AppOp) (cs : List Course), ∃ tail,
      runOp op (.content cs) = .content (cs ++ tail)) := by
  refine ⟨fun _ _ => rfl, fun _ => rfl, ?_⟩
  intro op cs
  exact ⟨[], by rw [runOp_state_unchanged]; simp⟩

/-- C9.  For a trimmed name shorter than four characters, the code
derivation neither fails nor pads: slicing `name[:4]` returns the whole
name, so the derived code is the entire upper-cased name followed by the
position number. -/
theorem new_code_short_name (name : String) (n : Nat)
    (hne : name ≠ "") (hlen : name.length < 4) :
    new_code name n = strUpper name ++ toString (n + 1) := by
  have hdata : name.data.take 4 = name.data := by
    refine List.take_of_length_le ?_
    have : name.length = name.data.length := rfl
    omega
  unfold new_code strTake
  rw [hdata]

/-- Witness for C9: name "AI" on an empty store yields code "AI1". -/
theorem new_code_short_name_witness :
    ("AI" : String) ≠ "" ∧ ("AI" : String).length < 4 ∧ new_code "AI" 0 = "AI1" := by
  refine ⟨by decide, by decide, ?_⟩
  have h := new_code_short_name "AI" 0 (by decide) (by decide)
  rw [h]
  decide

/-- C10.  The raw detail scan does no schema validation: if every stored
record has a `code` key the scan is total, producing either a match or a
not-found result; but if the records scanned before any match include one
lacking the key, the subscript `course['code']` raises `KeyError` and the
operation fails instead of answering not-found. -/
theorem find_course_raw_spec (courses : List RawCourse) (code : String) :
    ((∀ r ∈ courses, ∃ c, getItem r "code" = .ok c) →
      ∃ res, find_course_raw code courses = .ok res) ∧
    (∀ pre r post, courses = pre ++ r :: post →
      getItem r "code" = .error (.keyError "code") →
      (∀ r' ∈ pre, ∃ c, getItem r' "code" = .ok c ∧ c ≠ code) →
      find_course_raw code courses = .error (.keyError "code")) := by
  constructor
  · intro hall
    induction courses with
    | nil => exact ⟨none, rfl⟩
    | cons r rs ih =>
      obtain ⟨c, hc⟩ := hall r (List.mem_cons_self r rs)
      by_cases heq : c = code
      · exact ⟨some r, by simp [find_course_raw, hc, heq]⟩
      · obtain ⟨res, hres⟩ := ih (fun r' hr' => hall r' (List.mem_cons_of_mem r hr'))
        exact ⟨res, by simp [find_course_raw, hc, heq, hres]⟩
  · intro pre r post hsplit hr hpre
    subst hsplit
    induction pre with
    | nil => simp [find_course_raw, hr]
    | cons p ps ih =>
      obtain ⟨c, hc, hne⟩ := hpre p (List.mem_cons_self p ps)
      have hrest := ih (fun r' hr' => hpre r' (List.mem_cons_of_mem p hr'))
      simpa [find_course_raw, hc, hne] using hrest

/-- Witness for C10: a store whose first record has `code:"X"` and whose
second lacks the key entirely — scanning for an absent code succeeds when
every record has the key, and raises `KeyError` once the keyless record is
reached. -/
theorem find_course_raw_spec_witness :
    (∃ res, find_course_raw "Z" [[("code", "X")]] = .ok res) ∧
    find_course_raw "Z" [[("code", "X")], [("name", "Y")]] =
      .error (.keyError "code") := by
  constructor
  · refine (find_course_raw_spec [[("code", "X")]] "Z").1 ?_
    intro r hr
    rw [List.mem_singleton] at hr
    subst hr
    exact ⟨"X", rfl⟩
  · refine (find_course_raw_spec [[("code", "X")], [("name", "Y")]] "Z").2
      [[("code", "X")]] [("name", "Y")] [] rfl rfl ?_
    intro r' hr'
    rw [List.mem_singleton] at hr'
    subst hr'
    exact ⟨"X", rfl, by decide⟩

end CourseCatalog
